/-
Verification of the citizen-portal analytics and CRUD layer (`src/app.py`)
against its natural-language specification.

The Flask application is shallowly embedded: each route handler becomes a
pure Lean function over an explicit world state (service store, engagement
store, session flag).  Python dictionaries used as histograms become
insertion-ordered association lists (`List (κ × Nat)`), Python truthiness
is modelled explicitly, and `int(...)` becomes a fallible parse returning
`Option Int` (an uncaught failure is an `Except.error`).
-/
import Mathlib

set_option maxHeartbeats 1000000

namespace CitizenPortal

/-! ## Python scalar values and truthiness

The `age` field can hold either a number or a string (the JSON payload is
untyped there, and `admin_insights` guards `int(age)` with `try/except`).
-/

/-- A scalar that can sit in the `age` field of a payload or stored record. -/
inductive PyScalar where
  | int (n : Int)
  | str (s : String)
deriving DecidableEq

/-- Python truthiness of a scalar: `0` and `""` are falsy. -/
def pyTruthy : PyScalar → Bool
  | .int n => n != 0
  | .str s => s != ""

/-- Python truthiness of an optional string (`None` and `""` are falsy). -/
def truthyOptStr : Option String → Bool
  | none => false
  | some s => s != ""

/-- Strip leading and trailing whitespace from a character list
(Python `str.strip()` with no argument). -/
def trimChars (l : List Char) : List Char :=
  ((l.dropWhile Char.isWhitespace).reverse.dropWhile Char.isWhitespace).reverse

/-- Python `str.strip()`. -/
def pyStrip (s : String) : String :=
  String.mk (trimChars s.data)

/-- Decimal digits to a value; `none` on an empty run or a non-digit. -/
def parseDigitsAux : List Char → Nat → Option Nat
  | [], acc => some acc
  | c :: t, acc =>
    if c.isDigit then parseDigitsAux t (acc * 10 + (c.toNat - 48)) else none

def parseDigits : List Char → Option Nat
  | [] => none
  | l => parseDigitsAux l 0

/-- `int(s)` for a string: optional surrounding whitespace, an optional
sign, then decimal digits; anything else raises `ValueError` (here `none`). -/
def parsePyInt (s : String) : Option Int :=
  match trimChars s.data with
  | '-' :: t => (parseDigits t).map (fun n => -(n : Int))
  | '+' :: t => (parseDigits t).map (fun n => (n : Int))
  | l => (parseDigits l).map (fun n => (n : Int))

/-- Python `int(v)`: identity on ints, string parse on strings. -/
def pyInt : PyScalar → Option Int
  | .int n => some n
  | .str s => parsePyInt s

/-! ## Timestamps -/

/-- A UTC instant as produced by `datetime.utcnow()`. -/
structure DateTime where
  year : Nat := 0
  month : Nat := 0
  day : Nat := 0
  hour : Nat := 0
  minute : Nat := 0
  second : Nat := 0
  microsecond : Nat := 0
deriving DecidableEq

def padTo (width : Nat) (n : Nat) : String :=
  let s := toString n
  String.mk (List.replicate (width - s.length) '0') ++ s

/-- Python `datetime.isoformat()`: `YYYY-MM-DDTHH:MM:SS` with a
`.ffffff` suffix only when the microsecond part is nonzero. -/
def isoformat (t : DateTime) : String :=
  padTo 4 t.year ++ "-" ++ padTo 2 t.month ++ "-" ++ padTo 2 t.day ++ "T" ++
  padTo 2 t.hour ++ ":" ++ padTo 2 t.minute ++ ":" ++ padTo 2 t.second ++
  (if t.microsecond = 0 then "" else "." ++ padTo 6 t.microsecond)

/-! ## Data model (spec section 3) -/

/-- A stored engagement document.  Optional fields model both an absent
key and an explicit `null` (the code reads them with `.get`, which makes
the two indistinguishable); `desires` absent behaves as `[]` throughout
the code (`e.get("desires") or []`), so it is carried as a plain list. -/
structure Engagement where
  user_id : Option String := none
  age : Option PyScalar := none
  job : Option String := none
  desires : List String := []
  question_clicked : Option String := none
  service : Option String := none
  timestamp : Option DateTime := none
deriving DecidableEq

/-- The JSON body of `POST /api/engagement` (fields per spec section 3). -/
structure EngagementPayload where
  user_id : Option String := none
  age : Option PyScalar := none
  job : Option String := none
  desires : Option (List String) := none
  question_clicked : Option String := none
  service : Option String := none
deriving DecidableEq

/-- One entry of the `premium_suggestions` output list. -/
structure Lead where
  user : Option String
  question : Option String
  count : Nat
deriving DecidableEq

/-! ## Insertion-ordered histograms (Python dict counters)

`jobs[j] = jobs.get(j, 0) + 1` on a Python dict updates the entry in place
when the key exists and appends it otherwise; `bump` reproduces that. -/

section Hist

variable {κ : Type} [DecidableEq κ] {α : Type}

/-- `h[k] = h.get(k, 0) + 1` on an insertion-ordered dict. -/
def bump : List (κ × Nat) → κ → List (κ × Nat)
  | [], k => [(k, 1)]
  | (k0, c) :: t, k => if k0 = k then (k0, c + 1) :: t else (k0, c) :: bump t k

/-- Total count recorded for key `k` (summing duplicates, of which a
well-formed histogram has none). -/
def cnt : List (κ × Nat) → κ → Nat
  | [], _ => 0
  | (k0, c) :: t, k => (if k0 = k then c else 0) + cnt t k

/-- The keys of a histogram, in insertion order. -/
def keys (h : List (κ × Nat)) : List κ := h.map Prod.fst

/-- Sum of all recorded counts. -/
def sumCnt (h : List (κ × Nat)) : Nat := (h.map Prod.snd).sum

/-- Build a histogram by bumping `f e` for each element of the list. -/
def hfold (f : α → κ) (es : List α) : List (κ × Nat) :=
  es.foldl (fun h e => bump h (f e)) []

end Hist

/-! ## The engagement aggregator (`admin_insights`, `src/app.py` 101-156) -/

/-- The five fixed age buckets. -/
inductive AgeBucket where
  | lt18 | b18_25 | b26_40 | b41_60 | gt60
deriving DecidableEq

/-- The fixed-key dict `{"<18":0,"18-25":0,"26-40":0,"41-60":0,"60+":0}`. -/
structure AgeGroups where
  lt18 : Nat := 0
  b18_25 : Nat := 0
  b26_40 : Nat := 0
  b41_60 : Nat := 0
  gt60 : Nat := 0
deriving DecidableEq

def bumpAge (g : AgeGroups) : AgeBucket → AgeGroups
  | .lt18 => { g with lt18 := g.lt18 + 1 }
  | .b18_25 => { g with b18_25 := g.b18_25 + 1 }
  | .b26_40 => { g with b26_40 := g.b26_40 + 1 }
  | .b41_60 => { g with b41_60 := g.b41_60 + 1 }
  | .gt60 => { g with gt60 := g.gt60 + 1 }

/-- The cascade of comparisons on the coerced age (lines 110-119). -/
def bucketOf (n : Int) : AgeBucket :=
  if n < 18 then .lt18
  else if n ≤ 25 then .b18_25
  else if n ≤ 40 then .b26_40
  else if n ≤ 60 then .b41_60
  else .gt60

/-- One iteration of the age loop: `if not age: continue`, then
`try: age = int(age) ... except: continue`. -/
def ageStep (g : AgeGroups) (e : Engagement) : AgeGroups :=
  match e.age with
  | none => g
  | some v =>
    if pyTruthy v then
      match pyInt v with
      | some n => bumpAge g (bucketOf n)
      | none => g
    else g

def computeAgeGroups (es : List Engagement) : AgeGroups :=
  es.foldl ageStep {}

def sumBuckets (g : AgeGroups) : Nat :=
  g.lt18 + g.b18_25 + g.b26_40 + g.b41_60 + g.gt60

/-- `(e.get("job") or "Unknown").strip()` (line 126). -/
def jobKey (e : Engagement) : String :=
  pyStrip
    (match e.job with
     | some s => if s != "" then s else "Unknown"
     | none => "Unknown")

def computeJobs (es : List Engagement) : List (String × Nat) :=
  hfold jobKey es

/-- `e.get("service") or "Unknown"` (line 134). -/
def serviceKey (e : Engagement) : String :=
  match e.service with
  | some s => if s != "" then s else "Unknown"
  | none => "Unknown"

/-- `e.get("question_clicked") or "Unknown"` (line 135). -/
def questionKey (e : Engagement) : String :=
  match e.question_clicked with
  | some s => if s != "" then s else "Unknown"
  | none => "Unknown"

/-- The single loop filling the `services`, `questions` and `desires`
dicts (lines 130-140). -/
def sqdFold (es : List Engagement) :
    List (String × Nat) × List (String × Nat) × List (String × Nat) :=
  es.foldl
    (fun acc e =>
      (bump acc.1 (serviceKey e), bump acc.2.1 (questionKey e),
       e.desires.foldl bump acc.2.2))
    ([], [], [])

/-- The `$group` key of the premium pipeline (line 144). -/
def pairKey (e : Engagement) : Option String × Option String :=
  (e.user_id, e.question_clicked)

/-- The premium pipeline: group by `(user_id, question_clicked)`, keep
counts `≥ 2`, then keep only truthy users
(`... for r in repeated if r["_id"]["user"]`, line 148). -/
def premiumSuggestions (es : List Engagement) : List Lead :=
  (((hfold pairKey es).filter (fun g => 2 ≤ g.2)).filter
      (fun g => truthyOptStr g.1.1)).map
    (fun g => { user := g.1.1, question := g.1.2, count := g.2 })

/-- The JSON report returned by `GET /api/admin/insights`. -/
structure Report where
  age_groups : AgeGroups
  jobs : List (String × Nat)
  services : List (String × Nat)
  questions : List (String × Nat)
  desires : List (String × Nat)
  premium_suggestions : List Lead
deriving DecidableEq

def computeInsights (es : List Engagement) : Report :=
  { age_groups := computeAgeGroups es
    jobs := computeJobs es
    services := (sqdFold es).1
    questions := (sqdFold es).2.1
    desires := (sqdFold es).2.2
    premium_suggestions := premiumSuggestions es }

/-! ## CSV export (`export_csv`, `src/app.py` 169-190)

A row is the list of cell strings handed to `csv.writer.writerow`;
`None` renders as the empty string and an int as its decimal form. -/

def cellOfOptStr : Option String → String
  | none => ""
  | some s => s

def cellOfOptAge : Option PyScalar → String
  | none => ""
  | some (.int n) => toString n
  | some (.str s) => s

/-- The `writerow` call of the export loop (lines 178-183). -/
def rowOfEngagement (e : Engagement) : List String :=
  [cellOfOptStr e.user_id, cellOfOptAge e.age, cellOfOptStr e.job,
   String.intercalate "," e.desires,
   cellOfOptStr e.question_clicked, cellOfOptStr e.service,
   match e.timestamp with
   | some t => isoformat t
   | none => ""]

/-- The header row plus the cursor loop, accumulating rows in order. -/
def exportCsv (es : List Engagement) : List (List String) :=
  es.foldl (fun acc e => acc ++ [rowOfEngagement e])
    [["user_id", "age", "job", "desire", "question", "service", "timestamp"]]

/-! ## The service store and Mongo operations

Service documents are open maps; `update_one({"id": sid}, {"$set": payload},
upsert=True)` merges the payload fields into the first matching document,
or inserts a document built from the filter plus the payload. -/

/-- A service document: an insertion-ordered field map. -/
def Doc : Type := List (String × String)

instance : DecidableEq Doc := inferInstanceAs (DecidableEq (List (String × String)))

/-- First value stored under key `k`. -/
def getv : Doc → String → Option String
  | [], _ => none
  | (k0, v) :: t, k => if k0 = k then some v else getv t k

/-- Set one field: overwrite the first occurrence or append. -/
def setField : Doc → String → String → Doc
  | [], k, v => [(k, v)]
  | (k0, v0) :: t, k, v =>
    if k0 = k then (k0, v) :: t else (k0, v0) :: setField t k v

/-- Apply a `$set` document to an existing document. -/
def mergeSet (d : Doc) (payload : Doc) : Doc :=
  payload.foldl (fun d kv => setField d kv.1 kv.2) d

/-- `update_one({"id": sid}, {"$set": payload}, upsert=True)` over a store:
merge into the first document whose `id` is `sid`, else insert a fresh
document seeded from the equality filter. -/
def updateOneSet : List Doc → String → Doc → List Doc
  | [], sid, payload => [mergeSet [("id", sid)] payload]
  | d :: t, sid, payload =>
    if getv d "id" = some sid then mergeSet d payload :: t
    else d :: updateOneSet t sid payload

/-- `delete_one({"id": sid})`: remove the first matching document. -/
def deleteOne : List Doc → String → List Doc
  | [], _ => []
  | d :: t, sid => if getv d "id" = some sid then t else d :: deleteOne t sid

/-! ## Session, world state and routes -/

/-- The Flask session (`session["admin_logged_in"]`, `session["admin_user"]`). -/
structure SessionSt where
  admin_logged_in : Bool := false
  admin_user : Option String := none
deriving DecidableEq

/-- The mutable state a request can observe or change. -/
structure World where
  services : List Doc := []
  engagements : List Engagement := []
  session : SessionSt := {}
deriving DecidableEq

/-- An HTTP outcome: `unauthorized` is the 401 body
`{"error":"unauthorized"}`, `badRequest m` a 400 with message `m`, and
`ok a` a 200 carrying the handler's JSON value. -/
inductive Resp (ρ : Type) where
  | unauthorized
  | badRequest (msg : String)
  | ok (a : ρ)
deriving DecidableEq

/-- The `admin_required` decorator (lines 27-34): reject with 401 before
the handler runs (so with no state change) unless the session flag is set. -/
def adminRequired {ρ : Type} (w : World) (handler : World → Resp ρ × World) :
    Resp ρ × World :=
  if w.session.admin_logged_in then handler w else (.unauthorized, w)

/-- Body of `POST /api/admin/services` after the auth gate (lines 198-204):
`if not sid` is Python truthiness, so a missing and an empty `id` both 400. -/
def serviceUpsertHandler (store : List Doc) (payload : Doc) :
    Resp String × List Doc :=
  match getv payload "id" with
  | none => (.badRequest "id required", store)
  | some sid =>
    if sid = "" then (.badRequest "id required", store)
    else (.ok "ok", updateOneSet store sid payload)

/-- Descending-timestamp comparison used by `admin_engagements`
(`sort("timestamp", -1)`); documents without a timestamp sort last. -/
def tsGe (a b : Engagement) : Bool :=
  match a.timestamp, b.timestamp with
  | none, none => true
  | none, some _ => false
  | some _, none => true
  | some x, some y =>
    decide ((y.year, y.month, y.day, y.hour, y.minute, y.second, y.microsecond) ≤
      (x.year, x.month, x.day, x.hour, x.minute, x.second, x.microsecond))

def insertTs (e : Engagement) : List Engagement → List Engagement
  | [] => [e]
  | x :: xs => if tsGe e x then e :: x :: xs else x :: insertTs e xs

def sortTsDesc : List Engagement → List Engagement
  | [] => []
  | e :: es => insertTs e (sortTsDesc es)

/-- `eng_col.find().sort("timestamp",-1).limit(500)` (line 162). -/
def listEngagements (es : List Engagement) : List Engagement :=
  (sortTsDesc es).take 500

/-! ### Admin routes (each wrapped in `admin_required`) -/

def adminInsightsRoute (w : World) : Resp Report × World :=
  adminRequired w (fun w => (.ok (computeInsights w.engagements), w))

def adminEngagementsRoute (w : World) : Resp (List Engagement) × World :=
  adminRequired w (fun w => (.ok (listEngagements w.engagements), w))

def exportCsvRoute (w : World) : Resp (List (List String)) × World :=
  adminRequired w (fun w => (.ok (exportCsv w.engagements), w))

def adminServicesPostRoute (w : World) (payload : Doc) : Resp String × World :=
  adminRequired w (fun w =>
    let r := serviceUpsertHandler w.services payload
    (r.1, { w with services := r.2 }))

def deleteServiceRoute (w : World) (sid : String) : Resp String × World :=
  adminRequired w (fun w =>
    (.ok "deleted", { w with services := deleteOne w.services sid }))

def adminLogoutRoute (w : World) : Resp String × World :=
  adminRequired w (fun w => (.ok "logged out", { w with session := {} }))

/-! ## `POST /api/engagement` (`log_engagement`, lines 51-64)

`int(payload.get("age")) if payload.get("age") else None` is NOT guarded:
a truthy but unparseable age raises `ValueError` out of the handler. -/

def logEngagement (p : EngagementPayload) (now : DateTime) :
    Except String Engagement :=
  match p.age with
  | some v =>
    if pyTruthy v then
      match pyInt v with
      | some n =>
        .ok { user_id := if truthyOptStr p.user_id then p.user_id else none
              age := some (.int n)
              job := p.job
              desires := p.desires.getD []
              question_clicked := p.question_clicked
              service := p.service
              timestamp := some now }
      | none => .error "ValueError"
    else
      .ok { user_id := if truthyOptStr p.user_id then p.user_id else none
            age := none
            job := p.job
            desires := p.desires.getD []
            question_clicked := p.question_clicked
            service := p.service
            timestamp := some now }
  | none =>
    .ok { user_id := if truthyOptStr p.user_id then p.user_id else none
          age := none
          job := p.job
          desires := p.desires.getD []
          question_clicked := p.question_clicked
          service := p.service
          timestamp := some now }

/-- The route: insert the document, then respond `{"status":"ok"}`;
an uncaught exception aborts the request with no insert. -/
def logEngagementRoute (store : List Engagement) (p : EngagementPayload)
    (now : DateTime) : Except String (Resp String × List Engagement) :=
  (logEngagement p now).map (fun d => (.ok "ok", store ++ [d]))

end CitizenPortal

namespace CitizenPortal

/-! ## Histogram lemmas -/

/-! ## Derived predicates and sample data used by the claims -/

/-- The age value the insights loop actually buckets: present, truthy
(Python `if not age: continue`) and coercible by `int(...)`. -/
def truthyParsedAge (e : Engagement) : Option Int :=
  match e.age with
  | none => none
  | some v => if pyTruthy v then pyInt v else none

/-- The claim's own notion of a countable age, for the refinement
comparison: present, parseable and non-negative (the spec's words, not
the code's test). -/
def specValidAge (e : Engagement) : Bool :=
  match e.age with
  | none => false
  | some v =>
    match pyInt v with
    | none => false
    | some n => decide (0 ≤ n)

def specValidAgeCount (es : List Engagement) : Nat :=
  es.countP specValidAge

/-- How many engagements carry exactly this `(user_id, question_clicked)`
pair. -/
def pairCount (es : List Engagement) (u q : Option String) : Nat :=
  es.countP (fun e => decide (e.user_id = u ∧ e.question_clicked = q))

/-- A record whose age is truthy but fails `int(...)` coercion. -/
def eBadAge : Engagement := { age := some (.str "abc"), job := some "clerk" }

def eOther : Engagement := { job := some "  x ", desires := ["housing"] }

/-- The spec's worked premium-lead example. -/
def engC2example : List Engagement :=
  [{ user_id := some "A", question_clicked := some "Q1" },
   { user_id := some "A", question_clicked := some "Q1" },
   { user_id := some "A", question_clicked := some "Q2" },
   { question_clicked := some "Q1" },
   { question_clicked := some "Q1" }]

/-- Two engagements sharing an empty-string (non-null but falsy) user. -/
def engC2emptyUser : List Engagement :=
  [{ user_id := some "", question_clicked := some "Q1" },
   { user_id := some "", question_clicked := some "Q1" }]

def engEmptyJob : Engagement := { job := some "" }

/-- A `POST /api/engagement` body with a malformed (non-numeric) age. -/
def badAgePayload : EngagementPayload := { age := some (.str "abc") }

def p10 : EngagementPayload := { user_id := some "", desires := some ["a"] }

/-- The record `log_engagement` stores for `p10` at instant `{}`. -/
def d10 : Engagement := { desires := ["a"], timestamp := some {} }

/-- A world whose session is not authenticated and whose service store
holds one record. -/
def w6 : World := { services := [[("id", "a"), ("name", "X")]] }

def dt7 : DateTime :=
  { year := 2024, month := 3, day := 5, hour := 7, minute := 8, second := 9 }

section HistLemmas

variable {κ : Type} [DecidableEq κ] {α : Type}

omit [DecidableEq κ] in
theorem keys_nil : keys ([] : List (κ × Nat)) = [] := rfl

omit [DecidableEq κ] in
theorem keys_cons (k0 : κ) (c : Nat) (t : List (κ × Nat)) :
    keys ((k0, c) :: t) = k0 :: keys t := rfl

theorem cnt_bump (h : List (κ × Nat)) (k k1 : κ) :
    cnt (bump h k) k1 = cnt h k1 + (if k1 = k then 1 else 0) := by
  induction h with
  | nil =>
    rcases eq_or_ne k1 k with h1 | h1
    · subst h1
      simp [bump, cnt]
    · simp [bump, cnt, h1, Ne.symm h1]
  | cons kv t ih =>
    obtain ⟨k0, c⟩ := kv
    rcases eq_or_ne k0 k with h0 | h0
    · subst h0
      rcases eq_or_ne k1 k0 with h1 | h1
      · subst h1
        simp [bump, cnt]
        omega
      · simp [bump, cnt, h1, Ne.symm h1]
    · rcases eq_or_ne k0 k1 with h1 | h1
      · subst h1
        simp [bump, cnt, h0, ih]
      · simp [bump, cnt, h0, h1, ih]

theorem cnt_eq_zero_of_not_mem_keys {h : List (κ × Nat)} {k : κ}
    (hk : k ∉ keys h) : cnt h k = 0 := by
  induction h with
  | nil => rfl
  | cons kv t ih =>
    obtain ⟨k0, c⟩ := kv
    rw [keys_cons, List.mem_cons] at hk
    push_neg at hk
    have h0 : k0 ≠ k := fun he => hk.1 he.symm
    simp [cnt, h0, ih hk.2]

theorem mem_keys_bump (h : List (κ × Nat)) (k : κ) :
    keys (bump h k) = if k ∈ keys h then keys h else keys h ++ [k] := by
  induction h with
  | nil => simp [bump, keys]
  | cons kv t ih =>
    obtain ⟨k0, c⟩ := kv
    rcases eq_or_ne k0 k with h0 | h0
    · subst h0
      simp [bump, keys_cons]
    · have hne : k ≠ k0 := Ne.symm h0
      by_cases hm : k ∈ keys t
      · simp [bump, h0, keys_cons, hne, hm, ih]
      · simp [bump, h0, keys_cons, hne, hm, ih]

theorem nodup_keys_bump {h : List (κ × Nat)} (k : κ)
    (hnd : (keys h).Nodup) : (keys (bump h k)).Nodup := by
  rw [mem_keys_bump]
  by_cases hm : k ∈ keys h
  · simpa [hm] using hnd
  · rw [if_neg hm, List.nodup_append]
    refine ⟨hnd, List.nodup_singleton k, ?_⟩
    intro a ha hb
    rw [List.mem_singleton] at hb
    subst hb
    exact hm ha

theorem pos_bump {h : List (κ × Nat)} (k : κ)
    (hpos : ∀ kv ∈ h, 0 < kv.2) : ∀ kv ∈ bump h k, 0 < kv.2 := by
  induction h with
  | nil =>
    intro kv hkv
    simp [bump] at hkv
    simp [hkv]
  | cons kv0 t ih =>
    obtain ⟨k0, c⟩ := kv0
    intro kv hkv
    rcases eq_or_ne k0 k with h0 | h0
    · subst h0
      simp only [bump, if_pos rfl] at hkv
      rcases List.mem_cons.mp hkv with hkv | hkv
      · subst hkv
        exact Nat.succ_pos c
      · exact hpos kv (List.mem_cons_of_mem _ hkv)
    · simp only [bump, if_neg h0] at hkv
      rcases List.mem_cons.mp hkv with hkv | hkv
      · subst hkv
        exact hpos (k0, c) (by simp)
      · exact ih (fun kv hk => hpos kv (List.mem_cons_of_mem _ hk)) kv hkv

theorem cnt_eq_of_mem {h : List (κ × Nat)} {k : κ} {c : Nat}
    (hnd : (keys h).Nodup) (hm : (k, c) ∈ h) : cnt h k = c := by
  induction h with
  | nil => simp at hm
  | cons kv0 t ih =>
    obtain ⟨k0, c0⟩ := kv0
    rw [keys_cons, List.nodup_cons] at hnd
    rcases List.mem_cons.mp hm with hh | hh
    · rw [Prod.mk.injEq] at hh
      obtain ⟨hk, hc⟩ := hh
      subst hk
      subst hc
      have h0 : cnt t k = 0 := cnt_eq_zero_of_not_mem_keys hnd.1
      simp [cnt, h0]
    · have hk0 : k0 ≠ k := by
        intro he
        subst he
        exact hnd.1 (List.mem_map_of_mem Prod.fst hh)
      simp [cnt, hk0, ih hnd.2 hh]

theorem mem_hist_iff {h : List (κ × Nat)} {k : κ} {c : Nat}
    (hnd : (keys h).Nodup) (hpos : ∀ kv ∈ h, 0 < kv.2) :
    (k, c) ∈ h ↔ cnt h k = c ∧ 0 < c := by
  constructor
  · intro hm
    exact ⟨cnt_eq_of_mem hnd hm, hpos _ hm⟩
  · rintro ⟨hc, hcpos⟩
    by_cases hkm : k ∈ keys h
    · obtain ⟨⟨k1, b⟩, hb, hfst⟩ := List.mem_map.mp hkm
      dsimp at hfst
      subst hfst
      have hcb : cnt h k1 = b := cnt_eq_of_mem hnd hb
      have hbc : b = c := hcb.symm.trans hc
      exact hbc ▸ hb
    · rw [cnt_eq_zero_of_not_mem_keys hkm] at hc
      omega

theorem cnt_foldl_bump (f : α → κ) (k : κ) :
    ∀ (es : List α) (h : List (κ × Nat)),
      cnt (es.foldl (fun h e => bump h (f e)) h) k =
        cnt h k + es.countP (fun e => decide (f e = k)) := by
  intro es
  induction es with
  | nil =>
    intro h
    simp
  | cons e t ih =>
    intro h
    rw [List.foldl_cons, ih, cnt_bump, List.countP_cons]
    rcases eq_or_ne (f e) k with he | he
    · simp [he]
      omega
    · simp [he, Ne.symm he]

theorem nodup_keys_foldl_bump (f : α → κ) :
    ∀ (es : List α) (h : List (κ × Nat)),
      (keys h).Nodup → (keys (es.foldl (fun h e => bump h (f e)) h)).Nodup := by
  intro es
  induction es with
  | nil => exact fun h hh => hh
  | cons e t ih => exact fun h hh => ih _ (nodup_keys_bump _ hh)

theorem pos_foldl_bump (f : α → κ) :
    ∀ (es : List α) (h : List (κ × Nat)),
      (∀ kv ∈ h, 0 < kv.2) →
        ∀ kv ∈ es.foldl (fun h e => bump h (f e)) h, 0 < kv.2 := by
  intro es
  induction es with
  | nil => exact fun h hh => hh
  | cons e t ih => exact fun h hh => ih _ (pos_bump _ hh)

theorem cnt_hfold (f : α → κ) (es : List α) (k : κ) :
    cnt (hfold f es) k = es.countP (fun e => decide (f e = k)) := by
  have h := cnt_foldl_bump f k es []
  simpa [hfold, cnt] using h

/-- Membership in a grouped histogram is exactly "this key occurs `c > 0`
times in the input". -/
theorem mem_hfold {f : α → κ} {es : List α} {k : κ} {c : Nat} :
    (k, c) ∈ hfold f es ↔
      es.countP (fun e => decide (f e = k)) = c ∧ 0 < c := by
  have hnd : (keys (hfold f es)).Nodup :=
    nodup_keys_foldl_bump f es [] (by simp [keys])
  have hpos : ∀ kv ∈ hfold f es, 0 < kv.2 :=
    pos_foldl_bump f es [] (by simp)
  rw [mem_hist_iff hnd hpos, cnt_hfold]

theorem sumCnt_bump (h : List (κ × Nat)) (k : κ) :
    sumCnt (bump h k) = sumCnt h + 1 := by
  induction h with
  | nil => simp [bump, sumCnt]
  | cons kv t ih =>
    obtain ⟨k0, c⟩ := kv
    rcases eq_or_ne k0 k with h0 | h0
    · subst h0
      simp [bump, sumCnt]
      omega
    · have ih2 := ih
      simp only [bump, if_neg h0]
      simp [sumCnt] at ih2 ⊢
      omega

theorem sumCnt_foldl_bump (f : α → κ) :
    ∀ (es : List α) (h : List (κ × Nat)),
      sumCnt (es.foldl (fun h e => bump h (f e)) h) = sumCnt h + es.length := by
  intro es
  induction es with
  | nil =>
    intro h
    simp
  | cons e t ih =>
    intro h
    rw [List.foldl_cons, ih, sumCnt_bump, List.length_cons]
    omega

/-- A grouped histogram records one unit per input element. -/
theorem sumCnt_hfold (f : α → κ) (es : List α) :
    sumCnt (hfold f es) = es.length := by
  have h := sumCnt_foldl_bump f es []
  simpa [hfold, sumCnt] using h

end HistLemmas

/-! ## Age histogram lemmas -/

theorem sumBuckets_bumpAge (g : AgeGroups) (b : AgeBucket) :
    sumBuckets (bumpAge g b) = sumBuckets g + 1 := by
  cases b <;> simp [bumpAge, sumBuckets] <;> omega

theorem ageStep_eq_bump {e : Engagement} {n : Int}
    (h : truthyParsedAge e = some n) (g : AgeGroups) :
    ageStep g e = bumpAge g (bucketOf n) := by
  unfold truthyParsedAge at h
  unfold ageStep
  rcases ha : e.age with _ | v
  · simp only [ha] at h
    exact absurd h (by simp)
  · simp only [ha] at h ⊢
    by_cases ht : pyTruthy v
    · rw [if_pos ht] at h
      simp [ht, h]
    · rw [if_neg ht] at h
      exact absurd h (by simp)

theorem ageStep_eq_self {e : Engagement}
    (h : truthyParsedAge e = none) (g : AgeGroups) : ageStep g e = g := by
  unfold truthyParsedAge at h
  unfold ageStep
  rcases ha : e.age with _ | v
  · simp only [ha]
  · simp only [ha] at h ⊢
    by_cases ht : pyTruthy v
    · rw [if_pos ht] at h
      simp [ht, h]
    · simp [ht]

theorem sumBuckets_foldl_ageStep :
    ∀ (es : List Engagement) (g : AgeGroups),
      sumBuckets (es.foldl ageStep g) =
        sumBuckets g + es.countP (fun e => (truthyParsedAge e).isSome) := by
  intro es
  induction es with
  | nil =>
    intro g
    simp
  | cons e t ih =>
    intro g
    rw [List.foldl_cons, ih, List.countP_cons]
    rcases hn : truthyParsedAge e with _ | n
    · rw [ageStep_eq_self hn]
      simp [hn]
    · rw [ageStep_eq_bump hn, sumBuckets_bumpAge]
      simp [hn]
      omega

/-- C1 (amended): every engagement whose age is truthy (nonzero, nonempty)
and `int`-parseable increments exactly one bucket of the fixed histogram,
with the boundaries `<18`, `18-25`, `26-40`, `41-60`, `>60` and negative
ages falling into `"<18"`; records with a missing, zero/falsy or
unparseable age are silently excluded; the sum of the bucket counts equals
the number of records with a truthy parseable age. -/
theorem claim1_amended_age_histogram :
    ∀ es : List Engagement,
      (sumBuckets (computeAgeGroups es) =
        es.countP (fun e => (truthyParsedAge e).isSome))
      ∧ (∀ (e : Engagement) (n : Int), truthyParsedAge e = some n →
          computeAgeGroups (es ++ [e]) = bumpAge (computeAgeGroups es) (bucketOf n))
      ∧ (∀ e : Engagement, truthyParsedAge e = none →
          computeAgeGroups (es ++ [e]) = computeAgeGroups es)
      ∧ (∀ (g : AgeGroups) (b : AgeBucket),
          sumBuckets (bumpAge g b) = sumBuckets g + 1)
      ∧ (∀ n : Int,
          (n < 18 → bucketOf n = .lt18)
          ∧ (18 ≤ n → n ≤ 25 → bucketOf n = .b18_25)
          ∧ (26 ≤ n → n ≤ 40 → bucketOf n = .b26_40)
          ∧ (41 ≤ n → n ≤ 60 → bucketOf n = .b41_60)
          ∧ (60 < n → bucketOf n = .gt60)) := by
  intro es
  refine ⟨?_, ?_, ?_, sumBuckets_bumpAge, ?_⟩
  · have h := sumBuckets_foldl_ageStep es {}
    simpa [computeAgeGroups, sumBuckets] using h
  · intro e n hn
    unfold computeAgeGroups
    rw [List.foldl_append, List.foldl_cons, List.foldl_nil, ageStep_eq_bump hn]
  · intro e hn
    unfold computeAgeGroups
    rw [List.foldl_append, List.foldl_cons, List.foldl_nil, ageStep_eq_self hn]
  · intro n
    unfold bucketOf
    refine ⟨fun h1 => by simp [h1], fun h1 h2 => ?_, fun h1 h2 => ?_,
      fun h1 h2 => ?_, fun h1 => ?_⟩ <;>
      split_ifs <;> first | rfl | omega

/-- Witness for `claim1_amended_age_histogram`: a record with age 30 lands
exactly in the `26-40` bucket. -/
theorem claim1_amended_age_histogram_witness :
    computeAgeGroups ([] ++ [({ age := some (.int 30) } : Engagement)]) =
      bumpAge (computeAgeGroups []) (bucketOf 30) :=
  (claim1_amended_age_histogram []).2.1 { age := some (.int 30) } 30 rfl

/-- C1 as stated is false: a record with age `0` (present, parseable,
non-negative) is skipped by `if not age`, so the bucket sum falls short of
the valid-age count; and a negative age increments the `"<18"` bucket, so
the bucket sum can exceed the count of records with a valid (non-negative)
age. -/
theorem claim1_counterexample :
    (sumBuckets (computeAgeGroups [{ age := some (.int 0) }]) = 0
      ∧ specValidAgeCount [{ age := some (.int 0) }] = 1)
    ∧ (sumBuckets (computeAgeGroups [{ age := some (.int (-1)) }]) = 1
      ∧ specValidAgeCount [{ age := some (.int (-1)) }] = 0
      ∧ (computeAgeGroups [{ age := some (.int (-1)) }]).lt18 = 1) := by
  decide

/-! ## Per-record fault isolation (claim C3) -/

theorem foldl_congr_middle {β γ : Type} (f : γ → β → γ) (i : γ)
    (pre post : List β) (a b : β) (hab : ∀ g, f g a = f g b) :
    List.foldl f i (pre ++ a :: post) = List.foldl f i (pre ++ b :: post) := by
  rw [List.foldl_append, List.foldl_append, List.foldl_cons, List.foldl_cons,
    hab]

theorem foldl_middle_noop {β γ : Type} (f : γ → β → γ) (i : γ)
    (pre post : List β) (a : β) (ha : ∀ g, f g a = g) :
    List.foldl f i (pre ++ a :: post) = List.foldl f i (pre ++ post) := by
  rw [List.foldl_append, List.foldl_append, List.foldl_cons, ha]

/-- C3: `computeInsights` is a total function of the engagement set, and a
record whose age is present and truthy but fails `int(...)` coercion is
treated exactly as if its age were absent — the whole report is unchanged
by blanking that age, and the age histogram is the one computed with the
record removed (the coercion failure degrades only the age histogram,
never the other views and never the whole pass). -/
theorem claim3_coercion_isolation :
    ∀ (pre post : List Engagement) (e : Engagement) (v : PyScalar),
      e.age = some v → pyTruthy v = true → pyInt v = none →
      computeInsights (pre ++ e :: post) =
          computeInsights (pre ++ { e with age := none } :: post)
      ∧ (computeInsights (pre ++ e :: post)).age_groups =
          computeAgeGroups (pre ++ post) := by
  intro pre post e v ha ht hp
  have hnoop : ∀ g : AgeGroups, ageStep g e = g := by
    intro g
    exact ageStep_eq_self (by simp [truthyParsedAge, ha, ht, hp]) g
  have hage2 : truthyParsedAge { e with age := none } = none := by
    simp [truthyParsedAge]
  constructor
  · unfold computeInsights
    have h1 : computeAgeGroups (pre ++ e :: post) =
        computeAgeGroups (pre ++ { e with age := none } :: post) := by
      unfold computeAgeGroups
      rw [foldl_middle_noop _ _ _ _ _ hnoop,
        foldl_middle_noop _ _ _ _ _ (fun g => ageStep_eq_self hage2 g)]
    have h2 : computeJobs (pre ++ e :: post) =
        computeJobs (pre ++ { e with age := none } :: post) := by
      unfold computeJobs hfold
      exact foldl_congr_middle _ _ _ _ _ _ (fun g => rfl)
    have h3 : sqdFold (pre ++ e :: post) =
        sqdFold (pre ++ { e with age := none } :: post) := by
      unfold sqdFold
      exact foldl_congr_middle _ _ _ _ _ _ (fun g => rfl)
    have h4 : premiumSuggestions (pre ++ e :: post) =
        premiumSuggestions (pre ++ { e with age := none } :: post) := by
      have h5 :
          List.foldl (fun h e => bump h (pairKey e))
              ([] : List ((Option String × Option String) × Nat))
              (pre ++ e :: post) =
            List.foldl (fun h e => bump h (pairKey e)) []
              (pre ++ { e with age := none } :: post) :=
        foldl_congr_middle _ _ _ _ _ _ (fun g => rfl)
      unfold premiumSuggestions hfold
      rw [h5]
    rw [h1, h2, h3, h4]
  · show computeAgeGroups (pre ++ e :: post) = computeAgeGroups (pre ++ post)
    unfold computeAgeGroups
    exact foldl_middle_noop _ _ _ _ _ hnoop

/-- Witness for `claim3_coercion_isolation` at a concrete two-record set
whose first record has the unparseable age `"abc"`. -/
theorem claim3_coercion_isolation_witness :
    computeInsights ([] ++ eBadAge :: [eOther]) =
        computeInsights ([] ++ { eBadAge with age := none } :: [eOther])
    ∧ (computeInsights ([] ++ eBadAge :: [eOther])).age_groups =
        computeAgeGroups ([] ++ [eOther]) :=
  claim3_coercion_isolation [] [eOther] eBadAge (.str "abc") rfl rfl rfl

/-! ## Premium-lead detection (claim C2) -/

theorem truthyOptStr_iff (o : Option String) :
    truthyOptStr o = true ↔ ∃ s, o = some s ∧ s ≠ "" := by
  cases o <;> simp [truthyOptStr]

/-- A lead is in the output exactly when its user is truthy, its count is
at least 2, and that count is the number of engagements carrying its
`(user, question)` pair. -/
theorem premium_mem (es : List Engagement) (l : Lead) :
    l ∈ premiumSuggestions es ↔
      truthyOptStr l.user = true ∧ 2 ≤ l.count ∧
        pairCount es l.user l.question = l.count := by
  have hpred : ∀ (u q : Option String),
      (fun e => decide (pairKey e = (u, q))) =
        (fun e => decide (e.user_id = u ∧ e.question_clicked = q)) := by
    intro u q
    funext e
    simp [pairKey, Prod.ext_iff]
  unfold premiumSuggestions
  rw [List.mem_map]
  constructor
  · rintro ⟨⟨⟨u, q⟩, c⟩, hg, rfl⟩
    rw [List.mem_filter] at hg
    obtain ⟨hg1, htr⟩ := hg
    rw [List.mem_filter] at hg1
    obtain ⟨hgm, hge2⟩ := hg1
    rw [mem_hfold] at hgm
    refine ⟨htr, by simpa using hge2, ?_⟩
    dsimp
    rw [← hgm.1]
    unfold pairCount
    rw [hpred]
  · intro hl
    obtain ⟨u, q, c⟩ := l
    obtain ⟨htr, hc2, hcount⟩ := hl
    dsimp at htr hc2 hcount
    refine ⟨⟨⟨u, q⟩, c⟩, ?_, rfl⟩
    rw [List.mem_filter]
    refine ⟨?_, htr⟩
    rw [List.mem_filter]
    refine ⟨?_, by simpa using hc2⟩
    rw [mem_hfold]
    refine ⟨?_, by omega⟩
    rw [hpred]
    exact hcount

/-- C2 (amended): `computeInsights` emits a lead exactly for the
`(user_id, question_clicked)` groups whose count is at least 2 and whose
user is truthy — non-null **and non-empty** (the filter is Python
truthiness, so an empty-string user is also excluded); on the spec's
worked example the output is exactly `{user: "A", question: "Q1",
count: 2}`. -/
theorem claim2_amended_premium_leads :
    (∀ (es : List Engagement) (l : Lead),
        l ∈ premiumSuggestions es ↔
          (∃ s, l.user = some s ∧ s ≠ "") ∧ 2 ≤ l.count ∧
            pairCount es l.user l.question = l.count)
    ∧ premiumSuggestions engC2example =
        [{ user := some "A", question := some "Q1", count := 2 }] := by
  constructor
  · intro es l
    rw [premium_mem, truthyOptStr_iff]
  · decide

/-- Witness for `claim2_amended_premium_leads`: the characterization
produces the membership fact on the worked example. -/
theorem claim2_amended_premium_leads_witness :
    ({ user := some "A", question := some "Q1", count := 2 } : Lead) ∈
      premiumSuggestions engC2example :=
  (claim2_amended_premium_leads.1 engC2example
      { user := some "A", question := some "Q1", count := 2 }).mpr
    ⟨⟨"A", rfl, by decide⟩, by decide, by decide⟩

/-- C2 as stated is false at an empty-string (non-null) user: the pair
`(some "", "Q1")` occurs twice, yet no lead is emitted because the output
filter tests Python truthiness, not nullness. -/
theorem claim2_counterexample :
    premiumSuggestions engC2emptyUser = []
    ∧ pairCount engC2emptyUser (some "") (some "Q1") = 2
    ∧ (some "" : Option String) ≠ none := by
  decide

/-! ## Job histogram (claim C9) -/

/-- C9 (amended): the job histogram counts every engagement (the counts
sum to the set's size); the key is the stripped job string when the job
is a non-empty string, and the literal `"Unknown"` when the job is absent
**or the empty string** (the code tests Python truthiness before
stripping, so an empty job also maps to `"Unknown"`). -/
theorem claim9_amended_job_histogram :
    (∀ (es : List Engagement) (k : String),
        cnt (computeJobs es) k = es.countP (fun e => decide (jobKey e = k)))
    ∧ (∀ es : List Engagement, sumCnt (computeJobs es) = es.length)
    ∧ (∀ e : Engagement, e.job = none → jobKey e = "Unknown")
    ∧ (∀ e : Engagement, e.job = some "" → jobKey e = "Unknown")
    ∧ (∀ (e : Engagement) (s : String), e.job = some s → s ≠ "" →
        jobKey e = pyStrip s) := by
  refine ⟨fun es k => cnt_hfold _ _ _, fun es => sumCnt_hfold _ _, ?_, ?_, ?_⟩
  · intro e he
    unfold jobKey
    rw [he]
    decide
  · intro e he
    unfold jobKey
    rw [he]
    decide
  · intro e s hs hne
    unfold jobKey
    rw [hs]
    simp [hne]

/-- Witness for `claim9_amended_job_histogram`: a padded job string is
stripped, an empty one maps to `"Unknown"`. -/
theorem claim9_amended_job_histogram_witness :
    jobKey { job := some "  dev " } = pyStrip "  dev "
    ∧ jobKey engEmptyJob = "Unknown" :=
  ⟨claim9_amended_job_histogram.2.2.2.2 { job := some "  dev " } "  dev " rfl
      (by decide),
   claim9_amended_job_histogram.2.2.2.1 engEmptyJob rfl⟩

/-- C9 as stated is false at a present empty-string job: the claim maps it
to its trimmed value `""`, but the code counts it under `"Unknown"`. -/
theorem claim9_counterexample :
    computeJobs [engEmptyJob] = [("Unknown", 1)]
    ∧ engEmptyJob.job = some ""
    ∧ cnt (computeJobs [engEmptyJob]) (pyStrip "") = 0 := by
  decide

/-! ## Service upsert semantics (claim C4) -/

theorem getv_setField_same (d : Doc) (k v : String) :
    getv (setField d k v) k = some v := by
  induction d with
  | nil => simp [setField, getv]
  | cons kv t ih =>
    obtain ⟨k0, v0⟩ := kv
    rcases eq_or_ne k0 k with h0 | h0
    · subst h0
      simp [setField, getv]
    · simp [setField, getv, h0, ih]

theorem getv_setField_other (d : Doc) (k v k1 : String) (h : k1 ≠ k) :
    getv (setField d k v) k1 = getv d k1 := by
  induction d with
  | nil => simp [setField, getv, Ne.symm h]
  | cons kv t ih =>
    obtain ⟨k0, v0⟩ := kv
    rcases eq_or_ne k0 k with h0 | h0
    · subst h0
      simp [setField, getv, Ne.symm h]
    · rcases eq_or_ne k0 k1 with h1 | h1
      · subst h1
        simp [setField, getv, h0]
      · simp [setField, getv, h0, h1, ih]

theorem getv_eq_none_of_not_mem {d : Doc} {k : String}
    (h : k ∉ d.map Prod.fst) : getv d k = none := by
  induction d with
  | nil => rfl
  | cons kv t ih =>
    obtain ⟨k0, v0⟩ := kv
    rw [List.map_cons, List.mem_cons] at h
    push_neg at h
    have h0 : k0 ≠ k := fun (he : k0 = k) => h.1 he.symm
    simp [getv, h0, ih h.2]

/-- With a duplicate-free payload (a JSON object), `$set` gives each key
the payload's value when present, and the old document's otherwise. -/
theorem getv_mergeSet (payload : Doc)
    (hnd : (payload.map Prod.fst).Nodup) :
    ∀ (d : Doc) (k : String),
      getv (mergeSet d payload) k = (getv payload k <|> getv d k) := by
  induction payload with
  | nil =>
    intro d k
    simp [mergeSet, getv]
  | cons kv t ih =>
    obtain ⟨k0, v0⟩ := kv
    rw [List.map_cons, List.nodup_cons] at hnd
    intro d k
    have hstep : mergeSet d ((k0, v0) :: t) = mergeSet (setField d k0 v0) t := rfl
    rw [hstep, ih hnd.2]
    rcases eq_or_ne k k0 with hk | hk
    · subst hk
      have ht : getv t k = none := getv_eq_none_of_not_mem hnd.1
      simp [ht, getv, getv_setField_same]
    · simp [getv, Ne.symm hk, getv_setField_other d k0 v0 k hk]

theorem updateOneSet_no_match (payload : Doc) (sid : String) :
    ∀ store : List Doc, (∀ d ∈ store, getv d "id" ≠ some sid) →
      updateOneSet store sid payload =
        store ++ [mergeSet [("id", sid)] payload] := by
  intro store
  induction store with
  | nil => intro ; rfl
  | cons d t ih =>
    intro h
    have hd : getv d "id" ≠ some sid := h d (by simp)
    simp only [updateOneSet, if_neg hd]
    rw [ih (fun d1 h1 => h d1 (List.mem_cons_of_mem _ h1))]
    rfl

theorem updateOneSet_match (payload : Doc) (sid : String) :
    ∀ (pre post : List Doc) (d : Doc),
      (∀ d1 ∈ pre, getv d1 "id" ≠ some sid) → getv d "id" = some sid →
      updateOneSet (pre ++ d :: post) sid payload =
        pre ++ mergeSet d payload :: post := by
  intro pre
  induction pre with
  | nil =>
    intro post d _ hd
    simp only [List.nil_append, updateOneSet, if_pos hd]
  | cons d0 t ih =>
    intro post d h hd
    have h0 : getv d0 "id" ≠ some sid := h d0 (by simp)
    have hrec := ih post d (fun d1 h1 => h d1 (List.mem_cons_of_mem _ h1)) hd
    show updateOneSet (d0 :: (t ++ d :: post)) sid payload =
      d0 :: (t ++ mergeSet d payload :: post)
    simp only [updateOneSet, if_neg h0]
    exact congrArg (List.cons d0) hrec

/-- C4 (amended): for a payload with a truthy `id`, the upsert **merges**
the supplied fields into the first stored record with that `id` — a field
present in the old record but absent from the payload survives (`$set` is
a partial patch, not a replacement) — and inserts a record holding exactly
the payload's fields when no record matches. -/
theorem claim4_amended_upsert_merges :
    ∀ (payload : Doc) (sid : String),
      getv payload "id" = some sid → sid ≠ "" →
      (payload.map Prod.fst).Nodup →
      (∀ store : List Doc, (∀ d ∈ store, getv d "id" ≠ some sid) →
          serviceUpsertHandler store payload =
            (.ok "ok", store ++ [mergeSet [("id", sid)] payload])
          ∧ ∀ k, getv (mergeSet [("id", sid)] payload) k = getv payload k)
      ∧ (∀ (pre post : List Doc) (d : Doc),
          (∀ d1 ∈ pre, getv d1 "id" ≠ some sid) → getv d "id" = some sid →
          serviceUpsertHandler (pre ++ d :: post) payload =
            (.ok "ok", pre ++ mergeSet d payload :: post)
          ∧ ∀ k, getv (mergeSet d payload) k = (getv payload k <|> getv d k)) := by
  intro payload sid hid hne hnd
  constructor
  · intro store hno
    constructor
    · unfold serviceUpsertHandler
      simp only [hid]
      rw [if_neg hne, updateOneSet_no_match payload sid store hno]
    · intro k
      rw [getv_mergeSet payload hnd]
      rcases eq_or_ne k "id" with hk | hk
      · subst hk
        rw [hid]
        rfl
      · have hbase : getv [("id", sid)] k = none := by
          simp [getv, Ne.symm hk]
        rw [hbase]
        cases getv payload k <;> rfl
  · intro pre post d hpre hd
    constructor
    · unfold serviceUpsertHandler
      simp only [hid]
      rw [if_neg hne, updateOneSet_match payload sid pre post d hpre hd]
    · intro k
      exact getv_mergeSet payload hnd d k

/-- Witness for `claim4_amended_upsert_merges`: merging `{id: a, name: Z}`
over `{id: a, name: X, extra: Y}` keeps `extra`. -/
theorem claim4_amended_upsert_merges_witness :
    serviceUpsertHandler [[("id", "a"), ("name", "X"), ("extra", "Y")]]
        [("id", "a"), ("name", "Z")] =
      (.ok "ok", [[("id", "a"), ("name", "Z"), ("extra", "Y")]]) := by
  have h :=
    ((claim4_amended_upsert_merges [("id", "a"), ("name", "Z")] "a" rfl
          (by decide) (by decide)).2
      [] [] [("id", "a"), ("name", "X"), ("extra", "Y")] (by simp) rfl).1
  simpa using h

/-- C4 as stated is false: after upserting `{id: a, name: Z}` over a
stored `{id: a, name: X, extra: Y}`, the field `extra` — present before,
absent from the payload — survives, so the prior record was not replaced
entirely. -/
theorem claim4_counterexample :
    getv ((serviceUpsertHandler [[("id", "a"), ("name", "X"), ("extra", "Y")]]
          [("id", "a"), ("name", "Z")]).2.headD []) "extra" = some "Y"
    ∧ getv [("id", "a"), ("name", "Z")] "extra" = none := by
  decide

/-! ## Engagement logging (claims C5 and C10) -/

/-- C5 names a code bug: `log_engagement` computes
`int(payload.get("age"))` with no `try/except`, so a truthy but
non-numeric age (here `"abc"`) raises `ValueError` out of the handler —
the request fails and nothing is inserted — instead of storing the age as
null and answering `{"status":"ok"}` as the spec requires. -/
theorem claim5_code_bug_malformed_age :
    logEngagement badAgePayload {} = .error "ValueError"
    ∧ (∀ store : List Engagement,
        logEngagementRoute store badAgePayload {} = .error "ValueError")
    ∧ pyTruthy (.str "abc") = true
    ∧ pyInt (.str "abc") = none :=
  ⟨rfl, fun _ => rfl, rfl, rfl⟩

theorem logEngagement_ok_fields {p : EngagementPayload} {t : DateTime}
    {d : Engagement} (h : logEngagement p t = .ok d) :
    d.timestamp = some t
    ∧ d.desires = p.desires.getD []
    ∧ d.user_id = (if truthyOptStr p.user_id then p.user_id else none) := by
  unfold logEngagement at h
  rcases hpa : p.age with _ | v
  · simp only [hpa] at h
    injection h with hd
    subst hd
    exact ⟨rfl, rfl, rfl⟩
  · simp only [hpa] at h
    by_cases ht : pyTruthy v
    · rw [if_pos ht] at h
      rcases hpi : pyInt v with _ | n
      · rw [hpi] at h
        exact absurd h (by simp)
      · rw [hpi] at h
        injection h with hd
        subst hd
        exact ⟨rfl, rfl, rfl⟩
    · rw [if_neg ht] at h
      injection h with hd
      subst hd
      exact ⟨rfl, rfl, rfl⟩

/-- C10: every record `log_engagement` stores carries the insertion
instant as its (never-null) timestamp; its `desires` is the payload's list
or `[]`; an absent or empty-string `user_id` is stored as null; and every
premium lead carries a non-null, non-empty user — so a record logged with
an empty-string user can never be the user of a premium lead. -/
theorem claim10_logged_record_invariants :
    ∀ (p : EngagementPayload) (t : DateTime) (d : Engagement),
      logEngagement p t = .ok d →
      d.timestamp = some t
      ∧ d.desires = p.desires.getD []
      ∧ d.user_id = (if truthyOptStr p.user_id then p.user_id else none)
      ∧ ((p.user_id = none ∨ p.user_id = some "") → d.user_id = none)
      ∧ (∀ (es : List Engagement) (l : Lead),
          l ∈ premiumSuggestions es → ∃ s, l.user = some s ∧ s ≠ "") := by
  intro p t d h
  obtain ⟨h1, h2, h3⟩ := logEngagement_ok_fields h
  refine ⟨h1, h2, h3, ?_, ?_⟩
  · intro hc
    rw [h3]
    rcases hc with hc | hc <;> simp [hc, truthyOptStr]
  · intro es l hl
    exact (truthyOptStr_iff l.user).mp ((premium_mem es l).mp hl).1

/-- Witness for `claim10_logged_record_invariants`: logging a body with
`user_id = ""` stores a null user and the insertion timestamp. -/
theorem claim10_logged_record_invariants_witness :
    d10.timestamp = some ({} : DateTime) ∧ d10.user_id = none :=
  ⟨(claim10_logged_record_invariants p10 {} d10 rfl).1,
   (claim10_logged_record_invariants p10 {} d10 rfl).2.2.2.1 (Or.inr rfl)⟩

/-! ## Authorization gate (claim C6) -/

/-- C6: with the session not authenticated, every admin-only route —
insights, engagement listing, CSV export, service upsert, service delete,
logout — answers 401 `unauthorized` and leaves the world untouched; in
particular the targeted service record survives an unauthorized delete. -/
theorem claim6_unauthorized_no_side_effect :
    ∀ (w : World) (payload : Doc) (sid : String),
      w.session.admin_logged_in = false →
      adminInsightsRoute w = (.unauthorized, w)
      ∧ adminEngagementsRoute w = (.unauthorized, w)
      ∧ exportCsvRoute w = (.unauthorized, w)
      ∧ adminServicesPostRoute w payload = (.unauthorized, w)
      ∧ deleteServiceRoute w sid = (.unauthorized, w)
      ∧ adminLogoutRoute w = (.unauthorized, w)
      ∧ (deleteServiceRoute w sid).2.services = w.services := by
  intro w payload sid h
  simp [adminInsightsRoute, adminEngagementsRoute, exportCsvRoute,
    adminServicesPostRoute, deleteServiceRoute, adminLogoutRoute,
    adminRequired, h]

/-- Witness for `claim6_unauthorized_no_side_effect`: an unauthenticated
delete of the stored service `"a"` is refused and the store keeps it. -/
theorem claim6_unauthorized_no_side_effect_witness :
    deleteServiceRoute w6 "a" = (.unauthorized, w6)
    ∧ (deleteServiceRoute w6 "a").2.services = w6.services :=
  ⟨(claim6_unauthorized_no_side_effect w6 [] "a" rfl).2.2.2.2.1,
   (claim6_unauthorized_no_side_effect w6 [] "a" rfl).2.2.2.2.2.2⟩

/-! ## CSV export (claim C7) -/

theorem foldl_push_eq_append_map {β γ : Type} (g : β → γ) :
    ∀ (es : List β) (acc : List γ),
      es.foldl (fun acc e => acc ++ [g e]) acc = acc ++ es.map g := by
  intro es
  induction es with
  | nil =>
    intro acc
    simp
  | cons e t ih =>
    intro acc
    rw [List.foldl_cons, ih, List.map_cons]
    simp

/-- C7: the export is the fixed header
`user_id, age, job, desire, question, service, timestamp` followed by one
row per engagement in order; the desire cell is the comma-join of the
`desires` list (`["a","b"]` reads `"a,b"`), the timestamp cell is the
ISO-8601 `isoformat` text when present and empty when absent. -/
theorem claim7_export_csv :
    (∀ es : List Engagement,
        exportCsv es =
          ["user_id", "age", "job", "desire", "question", "service",
            "timestamp"] :: es.map rowOfEngagement)
    ∧ (∀ e : Engagement,
        rowOfEngagement e =
          [cellOfOptStr e.user_id, cellOfOptAge e.age, cellOfOptStr e.job,
            String.intercalate "," e.desires, cellOfOptStr e.question_clicked,
            cellOfOptStr e.service,
            match e.timestamp with
            | some t => isoformat t
            | none => ""])
    ∧ String.intercalate "," ["a", "b"] = "a,b"
    ∧ (∀ e : Engagement, e.desires = ["a", "b"] →
        (rowOfEngagement e).get? 3 = some "a,b")
    ∧ (∀ (e : Engagement) (t : DateTime), e.timestamp = some t →
        (rowOfEngagement e).get? 6 = some (isoformat t))
    ∧ (∀ e : Engagement, e.timestamp = none →
        (rowOfEngagement e).get? 6 = some "")
    ∧ isoformat dt7 = "2024-03-05T07:08:09" := by
  refine ⟨?_, fun e => rfl, by decide, ?_, ?_, ?_, by decide⟩
  · intro es
    unfold exportCsv
    rw [foldl_push_eq_append_map]
    simp
  · intro e he
    simp [rowOfEngagement, he]
    decide
  · intro e t ht
    simp [rowOfEngagement, ht]
  · intro e ht
    simp [rowOfEngagement, ht]

/-- Witness for `claim7_export_csv`: the desire cell of a concrete record
with `desires = ["a","b"]` reads `"a,b"`. -/
theorem claim7_export_csv_witness :
    (rowOfEngagement { desires := ["a", "b"] }).get? 3 = some "a,b" :=
  claim7_export_csv.2.2.2.1 { desires := ["a", "b"] } rfl

/-! ## Upsert validation (claim C8) -/

/-- C8: a payload with no `id` field is rejected with the 400 message
`"id required"` whatever its other fields hold, and the service store (in
fact the whole world) is unchanged. -/
theorem claim8_upsert_requires_id :
    ∀ (store : List Doc) (payload : Doc) (w : World),
      getv payload "id" = none →
      serviceUpsertHandler store payload = (.badRequest "id required", store)
      ∧ (w.session.admin_logged_in = true →
          adminServicesPostRoute w payload = (.badRequest "id required", w)) := by
  intro store payload w h
  constructor
  · unfold serviceUpsertHandler
    rw [h]
  · intro hw
    unfold adminServicesPostRoute adminRequired serviceUpsertHandler
    rw [hw]
    simp [h]

/-- Witness for `claim8_upsert_requires_id`: an id-less payload with other
fields is refused and the store stays as it was. -/
theorem claim8_upsert_requires_id_witness :
    serviceUpsertHandler [[("id", "a")]] [("name", "x")] =
      (.badRequest "id required", [[("id", "a")]]) :=
  (claim8_upsert_requires_id [[("id", "a")]] [("name", "x")] {} rfl).1


end CitizenPortal
